import Mathlib

/-!
A shallow embedding of the SSD1306 framebuffer driver in src/fb_ssd1306.c.

Every call write_reg(par, v) in the source issues the single byte v as one
command-phase bus transaction, so a source function that performs such calls
is embedded as a Lean function returning the list of issued bytes in program
order.  Machine integers (u8, u16, u32, int) are embedded as Nat, with Int
for C return codes; the pixel buffer vmem16 is embedded as a function from
flat indices to sample values, of which the source only reads truthiness.
-/

/-- Display lifecycle state.  Modelled from the spec (section 3): the C code
keeps no such state variable; the spec defines the lifecycle
Uninitialized to Initializing to On, with blanking toggling On and Blanked. -/
inductive DisplayState
  | Uninitialized
  | Initializing
  | On
  | Blanked
  deriving DecidableEq

/-- Result of init_display: the contrast store (the field gamma.curves[0] of
the driver parameter record) after the call, the list of command bytes issued
through write_reg, and the C return value. -/
structure InitResult where
  curves0 : Nat
  trace : List Nat
  ret : Int
  deriving DecidableEq

/-- Embedding of init_display (src/fb_ssd1306.c lines 32 to 120).  Inputs are
the stored contrast gamma.curves[0], the vertical resolution var.yres and the
rotation pdata.rotate.  The trace lists the 23 write_reg bytes in program
order; the source function ends with return 0 (line 119) and contains no
conditional on any bus outcome. -/
def init_display (curves0 yres rotate : Nat) : InitResult :=
  { curves0 := if curves0 = 0 then (if yres = 64 then 0xCF else 0x8F) else curves0,
    trace := [0xAE,
              0xD5, 0x80,
              0xA8, yres - 1,
              0xD3, 0x0,
              0x40 ||| 0x0,
              0x8D, 0x14,
              if 180 ≤ rotate then 0xA1 else 0xA0,
              if 180 ≤ rotate then 0xC8 else 0xC0,
              0xDA, if yres = 64 then 0x12 else if yres = 48 then 0x12 else 0x02,
              0x20, 0x01,
              0xD9, 0xF1,
              0xDB, 0x40,
              0xA4,
              0xA6,
              0xAF],
    ret := 0 }

/-- A run of init_display against a bus on which write number n fails iff
busFails n is true.  In the source every write_reg call inside init_display is
a bare statement: write_reg expands to the void write_register callback of the
driver core, so no branch, no early return and not the final return value of
init_display depends on any bus outcome.  The run result is therefore
init_display itself, for every failure pattern. -/
def run_init_display (curves0 yres rotate : Nat) (busFails : Nat → Bool) : InitResult :=
  init_display curves0 yres rotate

/-- Embedding of set_addr_win_64x48 (lines 122 to 134): its six command bytes. -/
def set_addr_win_64x48 : List Nat :=
  [0x21, 0x20, 0x5F, 0x22, 0x0, 0x5]

/-- Embedding of set_addr_win_top_left (lines 136 to 148): column range 0 to
xres - 1 followed by page range 0 to yres / 8 - 1. -/
def set_addr_win_top_left (xres yres : Nat) : List Nat :=
  [0x21, 0x00, xres - 1, 0x22, 0x0, yres / 8 - 1]

/-- Embedding of set_addr_win (lines 150 to 160): dispatches on the geometry
alone, ignoring the requested coordinates xs, ys, xe, ye; the source function
is void and has no error path. -/
def set_addr_win (xres yres xs ys xe ye : Nat) : List Nat :=
  if xres = 64 ∧ yres = 48 then set_addr_win_64x48 else set_addr_win_top_left xres yres

/-- Embedding of blank (lines 162 to 172): the issued command byte and the C
return value 0.  The source parameter named on is a Lean keyword and is
rendered here as onOff. -/
def blank (onOff : Bool) : List Nat × Int :=
  (if onOff then [0xAE] else [0xAF], 0)

/-- Modelled from the spec: section 3 defines DisplayState with blanking
toggling On and Blanked and no other transitions, and section 4.5 has
set_blank update DisplayState accordingly; the C code stores no such state. -/
def blank_state (s : DisplayState) (onOff : Bool) : DisplayState :=
  match s, onOff with
  | DisplayState.On, true => DisplayState.Blanked
  | DisplayState.Blanked, false => DisplayState.On
  | s, _ => s

/-- Embedding of set_gamma (lines 175 to 185): the new stored contrast value
(the source writes curves[0] &= 0xFF in place through the caller-visible
store), the two issued command bytes, and the C return value 0. -/
def set_gamma (curves0 : Nat) : Nat × List Nat × Int :=
  (curves0 &&& 0xFF, [0x81, curves0 &&& 0xFF], 0)

/-- One output byte of write_vmem (lines 201 to 204): bit i is set iff the
sample at row-major index (y * 8 + i) * xres + x is nonzero, accumulated
exactly as the source does with an or of shifted 0/1 values over i = 0..7. -/
def ssd1306_pack_byte (vmem : Nat → Nat) (xres x y : Nat) : Nat :=
  (List.range 8).foldl
    (fun b i => b ||| ((if vmem ((y * 8 + i) * xres + x) ≠ 0 then 1 else 0) <<< i)) 0

/-- The packed buffer built by write_vmem (lines 197 to 206): outer loop over
columns x, inner loop over pages y, one byte appended per (x, y). -/
def write_vmem_buf (vmem : Nat → Nat) (xres yres : Nat) : List Nat :=
  (List.range xres).flatMap fun x =>
    (List.range (yres / 8)).map fun y => ssd1306_pack_byte vmem xres x y

/-- The byte count write_vmem passes to the data-phase bus write (line 210). -/
def write_vmem_len (xres yres : Nat) : Nat := xres * yres / 8

/-- Expanding one bit of a packed frame back to a 0/1 sample: bit i of the
byte at index x * (yres / 8) + y. -/
def unpack_bit (packed : List Nat) (yres x y i : Nat) : Nat :=
  if (packed.getD (x * (yres / 8) + y) 0).testBit i then 1 else 0

/-- Generalisation of the inner loop of write_vmem: the or of bit i over all
i below n at which p holds. -/
def packAcc (p : Nat → Prop) [DecidablePred p] (n : Nat) : Nat :=
  (List.range n).foldl (fun b i => b ||| ((if p i then 1 else 0) <<< i)) 0

theorem packAcc_succ (p : Nat → Prop) [DecidablePred p] (n : Nat) :
    packAcc p (n + 1) = packAcc p n ||| ((if p n then 1 else 0) <<< n) := by
  simp [packAcc, List.range_succ]

theorem testBit_packAcc (p : Nat → Prop) [DecidablePred p] (n j : Nat) :
    (packAcc p n).testBit j = (decide (j < n) && decide (p j)) := by
  induction n with
  | zero => simp [packAcc]
  | succ n ih =>
      rw [packAcc_succ, Nat.testBit_or, ih]
      by_cases hp : p n
      · rw [if_pos hp, Nat.shiftLeft_eq, one_mul]
        rcases Nat.lt_trichotomy j n with h | h | h
        · have h1 : j < n + 1 := by omega
          have h2 : n ≠ j := by omega
          simp [Nat.testBit_two_pow, h, h1, h2]
        · subst h
          simp [Nat.testBit_two_pow, hp, Nat.lt_irrefl, Nat.lt_succ_self]
        · have h1 : ¬ j < n := by omega
          have h2 : ¬ j < n + 1 := by omega
          have h3 : n ≠ j := by omega
          simp [Nat.testBit_two_pow, h1, h2, h3]
      · rw [if_neg hp, Nat.zero_shiftLeft]
        rcases Nat.lt_trichotomy j n with h | h | h
        · have h1 : j < n + 1 := by omega
          simp [h, h1]
        · subst h
          simp [hp]
        · have h1 : ¬ j < n := by omega
          have h2 : ¬ j < n + 1 := by omega
          simp [h1, h2]

theorem pack_byte_eq_packAcc (vmem : Nat → Nat) (xres x y : Nat) :
    ssd1306_pack_byte vmem xres x y
      = packAcc (fun i => vmem ((y * 8 + i) * xres + x) ≠ 0) 8 :=
  rfl

theorem flatMap_range_length (g : Nat → List Nat) (n m : Nat)
    (hg : ∀ t, (g t).length = n) :
    ((List.range m).flatMap g).length = m * n := by
  induction m with
  | zero => simp
  | succ m ih =>
      rw [List.range_succ, List.flatMap_append, List.length_append, ih]
      simp [hg, Nat.succ_mul]

theorem flatMap_range_getElem? (g : Nat → List Nat) (n m x k : Nat)
    (hg : ∀ t, (g t).length = n) (hx : x < m) (hk : k < n) :
    ((List.range m).flatMap g)[x * n + k]? = (g x)[k]? := by
  induction m with
  | zero => exact absurd hx (Nat.not_lt_zero x)
  | succ m ih =>
      rw [List.range_succ, List.flatMap_append]
      have hlen : ((List.range m).flatMap g).length = m * n :=
        flatMap_range_length g n m hg
      rcases Nat.lt_or_ge x m with h | h
      · have e1 : x * n + k < x * n + n := Nat.add_lt_add_left hk (x * n)
        have e2 : x * n + n ≤ m * n := by
          calc x * n + n = (x + 1) * n := (Nat.succ_mul x n).symm
            _ ≤ m * n := Nat.mul_le_mul_right n h
        have hn : x * n + k < ((List.range m).flatMap g).length := by
          rw [hlen]
          exact lt_of_lt_of_le e1 e2
        rw [List.getElem?_append_left hn]
        exact ih h
      · have hx2 : x = m := by omega
        rw [hx2]
        have hle : ((List.range m).flatMap g).length ≤ m * n + k := by
          rw [hlen]
          exact Nat.le_add_right _ _
        rw [List.getElem?_append_right hle, hlen]
        simp [Nat.add_sub_cancel_left]

theorem write_vmem_buf_length (vmem : Nat → Nat) (xres yres : Nat) :
    (write_vmem_buf vmem xres yres).length = xres * (yres / 8) :=
  flatMap_range_length _ (yres / 8) xres (fun t => by simp)

theorem write_vmem_buf_getD (vmem : Nat → Nat) (xres yres x y : Nat)
    (hx : x < xres) (hy : y < yres / 8) :
    (write_vmem_buf vmem xres yres).getD (x * (yres / 8) + y) 0
      = ssd1306_pack_byte vmem xres x y := by
  rw [List.getD_eq_getElem?_getD]
  unfold write_vmem_buf
  rw [flatMap_range_getElem? _ (yres / 8) xres x y (fun t => by simp) hx hy]
  simp [List.getElem?_range hy]

theorem write_vmem_buf_testBit (vmem : Nat → Nat) (xres yres x y i : Nat)
    (hx : x < xres) (hy : y < yres / 8) (hi : i < 8) :
    ((write_vmem_buf vmem xres yres).getD (x * (yres / 8) + y) 0).testBit i
      = decide (vmem ((y * 8 + i) * xres + x) ≠ 0) := by
  rw [write_vmem_buf_getD vmem xres yres x y hx hy, pack_byte_eq_packAcc,
      testBit_packAcc]
  simp [hi]

/-- C1: for a geometry with height a multiple of 8, the packed buffer built by
write_vmem has exactly width * height / 8 bytes, and for every column x, page
y and bit i, bit i of the byte at index x * (height / 8) + y is set iff the
sample at row-major index (y * 8 + i) * width + x is nonzero. -/
theorem write_vmem_pack_spec (vmem : Nat → Nat) (xres yres x y i : Nat)
    (h8 : 8 ∣ yres) (hx : x < xres) (hy : y < yres / 8) (hi : i < 8) :
    (write_vmem_buf vmem xres yres).length = xres * yres / 8 ∧
    (((write_vmem_buf vmem xres yres).getD (x * (yres / 8) + y) 0).testBit i = true ↔
      vmem ((y * 8 + i) * xres + x) ≠ 0) := by
  constructor
  · rw [write_vmem_buf_length, Nat.mul_div_assoc xres h8]
  · rw [write_vmem_buf_testBit vmem xres yres x y i hx hy hi]
    simp

theorem write_vmem_pack_spec_witness :
    (write_vmem_buf (fun k => k % 2) 2 8).length = 2 * 8 / 8 ∧
    (((write_vmem_buf (fun k => k % 2) 2 8).getD (1 * (8 / 8) + 0) 0).testBit 3 = true ↔
      (fun k : Nat => k % 2) ((0 * 8 + 3) * 2 + 1) ≠ 0) :=
  write_vmem_pack_spec (fun k => k % 2) 2 8 1 0 3 (by decide) (by decide)
    (by decide) (by decide)

/-- C7: for a pixel buffer whose samples are each 0 or 1 and a geometry with
height a multiple of 8, packing with write_vmem and then expanding bit i of
the byte at index x * (height / 8) + y reproduces the sample at row-major
index (y * 8 + i) * width + x exactly. -/
theorem pack_unpack_roundtrip (vmem : Nat → Nat) (xres yres x y i : Nat)
    (hbin : ∀ k, vmem k = 0 ∨ vmem k = 1) (h8 : 8 ∣ yres)
    (hx : x < xres) (hy : y < yres / 8) (hi : i < 8) :
    unpack_bit (write_vmem_buf vmem xres yres) yres x y i
      = vmem ((y * 8 + i) * xres + x) := by
  unfold unpack_bit
  rw [write_vmem_buf_testBit vmem xres yres x y i hx hy hi]
  rcases hbin ((y * 8 + i) * xres + x) with h | h <;> rw [h] <;> simp

theorem pack_unpack_roundtrip_witness :
    unpack_bit (write_vmem_buf (fun k => k % 2) 2 8) 8 1 0 3
      = (fun k : Nat => k % 2) ((0 * 8 + 3) * 2 + 1) :=
  pack_unpack_roundtrip (fun k => k % 2) 2 8 1 0 3
    (fun k => Nat.mod_two_eq_zero_or_one k) (by decide) (by decide) (by decide)
    (by decide)

/-- C2 counterexample: the claim that apart from the COM-pins argument all
command and argument bytes of init_display agree between heights 64 and 32 is
false: the multiplex-ratio argument (trace index 4) is height - 1, hence 63
for height 64 and 31 for height 32; removing the COM-pins argument byte
(index 13) still leaves unequal traces. -/
theorem init_display_multiplex_differs :
    (init_display 0 64 0).trace.getD 4 0 = 63 ∧
    (init_display 0 32 0).trace.getD 4 0 = 31 ∧
    (init_display 0 64 0).trace.eraseIdx 13 ≠ (init_display 0 32 0).trace.eraseIdx 13 := by
  decide

/-- C2 amended: for geometry (128, 64) at rotation 0, init_display issues
exactly the 23 command-phase transactions realizing the 16 steps of the spec
in order (each byte a separate write_reg call); the COM-pins argument (index
13) is 0x12 for heights 64 and 48 and 0x02 for height 32; between heights 64
and 32 the traces agree everywhere except the COM-pins argument and the
multiplex-ratio argument (index 4, which equals height - 1). -/
theorem init_display_trace_spec :
    (init_display 0 64 0).trace
      = [0xAE, 0xD5, 0x80, 0xA8, 0x3F, 0xD3, 0x0, 0x40, 0x8D, 0x14, 0xA0, 0xC0,
         0xDA, 0x12, 0x20, 0x01, 0xD9, 0xF1, 0xDB, 0x40, 0xA4, 0xA6, 0xAF] ∧
    (init_display 0 32 0).trace
      = [0xAE, 0xD5, 0x80, 0xA8, 0x1F, 0xD3, 0x0, 0x40, 0x8D, 0x14, 0xA0, 0xC0,
         0xDA, 0x02, 0x20, 0x01, 0xD9, 0xF1, 0xDB, 0x40, 0xA4, 0xA6, 0xAF] ∧
    (init_display 0 48 0).trace.getD 13 0 = 0x12 ∧
    ((init_display 0 64 0).trace.eraseIdx 13).eraseIdx 4
      = ((init_display 0 32 0).trace.eraseIdx 13).eraseIdx 4 := by
  decide

/-- C3: for every geometry other than exactly 64 by 48, set_addr_win emits the
column-range command with start 0 and end width - 1 followed by the page-range
command with start 0 and end height / 8 - 1; for exactly 64 by 48 it emits
column range 32 to 95 and page range 0 to 5; in both cases the output is
independent of the requested coordinates (and of pixel content, which it never
reads). -/
theorem set_addr_win_variants (xres yres xs ys xe ye xs2 ys2 xe2 ye2 : Nat) :
    (¬(xres = 64 ∧ yres = 48) →
      set_addr_win xres yres xs ys xe ye
        = [0x21, 0, xres - 1, 0x22, 0, yres / 8 - 1]) ∧
    ((xres = 64 ∧ yres = 48) →
      set_addr_win xres yres xs ys xe ye = [0x21, 32, 95, 0x22, 0, 5]) ∧
    set_addr_win xres yres xs ys xe ye = set_addr_win xres yres xs2 ys2 xe2 ye2 := by
  refine ⟨fun h => ?_, fun h => ?_, rfl⟩
  · simp [set_addr_win, set_addr_win_top_left, h]
  · simp [set_addr_win, set_addr_win_64x48, h]

theorem set_addr_win_variants_witness :
    set_addr_win 128 32 1 2 3 4 = [0x21, 0, 127, 0x22, 0, 3] ∧
    set_addr_win 64 48 7 7 7 7 = [0x21, 32, 95, 0x22, 0, 5] :=
  ⟨(set_addr_win_variants 128 32 1 2 3 4 0 0 0 0).1 (by decide),
   (set_addr_win_variants 64 48 7 7 7 7 0 0 0 0).2.1 (by decide)⟩

/-- C5 counterexample: for the unsupported geometry (10, 12) (height not a
multiple of 8), set_addr_win does not refuse to proceed: it issues the six
variant-A bytes.  The source function is void with no error path at all. -/
theorem set_addr_win_unsupported_cex :
    set_addr_win 10 12 0 0 0 0 = [0x21, 0, 9, 0x22, 0, 0] ∧
    set_addr_win 10 12 0 0 0 0 ≠ [] := by
  decide

/-- C5 amended: set_addr_win never rejects a geometry: for every geometry,
supported or not, it issues exactly six command bytes, and it issues the
variant-B bytes exactly when the geometry is 64 by 48 (every other geometry
gets variant A). -/
theorem set_addr_win_no_reject (xres yres xs ys xe ye : Nat) :
    (set_addr_win xres yres xs ys xe ye).length = 6 ∧
    ((xres = 64 ∧ yres = 48) ↔
      set_addr_win xres yres xs ys xe ye = set_addr_win_64x48) := by
  constructor
  · by_cases h : xres = 64 ∧ yres = 48 <;>
      simp [set_addr_win, set_addr_win_64x48, set_addr_win_top_left, h]
  · constructor
    · intro h
      simp [set_addr_win, h]
    · intro h
      by_contra hne
      rw [set_addr_win, if_neg hne] at h
      simp [set_addr_win_top_left, set_addr_win_64x48] at h

theorem set_addr_win_no_reject_witness :
    (set_addr_win 10 12 0 0 0 0).length = 6 ∧
    ((10 = 64 ∧ 12 = 48) ↔ set_addr_win 10 12 0 0 0 0 = set_addr_win_64x48) :=
  set_addr_win_no_reject 10 12 0 0 0 0

/-- C4: during init_display, a stored contrast equal to the unset sentinel 0
is set to 0xCF for height 64 and to 0x8F for every other height (hence it is
nonzero afterwards), while an already nonzero stored contrast is left
unchanged. -/
theorem init_display_contrast (curves0 yres rotate : Nat) :
    (curves0 = 0 →
      (init_display curves0 yres rotate).curves0
        = (if yres = 64 then 0xCF else 0x8F) ∧
      (init_display curves0 yres rotate).curves0 ≠ 0) ∧
    (curves0 ≠ 0 → (init_display curves0 yres rotate).curves0 = curves0) := by
  constructor
  · intro h
    subst h
    by_cases hy : yres = 64 <;> simp [init_display, hy]
  · intro h
    simp [init_display, h]

theorem init_display_contrast_witness :
    ((init_display 0 64 0).curves0 = (if (64 : Nat) = 64 then 0xCF else 0x8F) ∧
      (init_display 0 64 0).curves0 ≠ 0) ∧
    (init_display 5 32 0).curves0 = 5 :=
  ⟨(init_display_contrast 0 64 0).1 rfl, (init_display_contrast 5 32 0).2 (by decide)⟩

/-- C6 counterexample: against a bus on which every write fails, init_display
still issues all 23 command transactions and returns 0, the C success code:
the sequence neither aborts nor surfaces the failure. -/
theorem init_display_bus_failure_cex :
    (run_init_display 0 64 0 (fun k => true)).ret = 0 ∧
    (run_init_display 0 64 0 (fun k => true)).trace.length = 23 := by
  decide

/-- C6 amended: init_display cannot observe bus write failures: for every two
failure patterns the run result is identical, the full 23-transaction sequence
is issued, and the return value is 0 (success); the code tracks no
DisplayState. -/
theorem init_display_ignores_bus (curves0 yres rotate : Nat) (f g : Nat → Bool) :
    run_init_display curves0 yres rotate f = run_init_display curves0 yres rotate g ∧
    (run_init_display curves0 yres rotate f).ret = 0 ∧
    (run_init_display curves0 yres rotate f).trace.length = 23 :=
  ⟨rfl, rfl, rfl⟩

/-- C8: for every input level, set_gamma masks the level to its low 8 bits and
sends exactly two command-phase transactions: the contrast-select byte 0x81
followed by the masked level byte. -/
theorem set_gamma_spec (level : Nat) :
    (set_gamma level).2.1 = [0x81, level % 256] ∧
    (set_gamma level).2.1.length = 2 ∧
    (set_gamma level).1 = level % 256 := by
  have hm : level &&& 0xFF = level % 256 := by
    have h := Nat.and_pow_two_sub_one_eq_mod level 8
    norm_num at h
    exact h
  refine ⟨?_, rfl, ?_⟩ <;> simp [set_gamma, hm]

/-- C10: set_gamma updates the caller-visible contrast store in place: after
the call the stored value is the level masked to its low 8 bits, hence always
below 256. -/
theorem set_gamma_frame_effect (level : Nat) :
    (set_gamma level).1 = level % 256 ∧ (set_gamma level).1 < 256 := by
  have hm : level &&& 0xFF = level % 256 := by
    have h := Nat.and_pow_two_sub_one_eq_mod level 8
    norm_num at h
    exact h
  constructor
  · simp [set_gamma, hm]
  · simp only [set_gamma]
    rw [hm]
    exact Nat.mod_lt level (by decide)

/-- C9: blank true sends exactly the Display-OFF byte 0xAE and blank false
sends exactly the Display-ON byte 0xAF, so the pair issues Display-OFF then
Display-ON; on the spec-modelled DisplayState the pair returns On to On. -/
theorem blank_spec :
    (blank true).1 = [0xAE] ∧ (blank false).1 = [0xAF] ∧
    (blank true).1 ++ (blank false).1 = [0xAE, 0xAF] ∧
    blank_state (blank_state DisplayState.On true) false = DisplayState.On := by
  decide
